import Mathlib

/-!
Verification of the task-record manager of `task_manager.py` (the Task Store
Manager of the spec).  The manager is stateless between calls: every operation
loads the whole collection from one JSON file, mutates it in memory and writes
it back.  We embed the collection as a `List Task` (the parsed file content),
the clock as an explicit `now : String` argument (Python's
`datetime.now().isoformat(timespec="seconds")`), and every operation as a pure
function returning the operation's result (`Except Err Task`, mirroring
return-value vs. raised `ValueError`) together with the file content after the
call, so that "no write occurs on error" is a provable statement.
-/

namespace TaskTango

/-- A task record, the sole entity: the five fields of the dicts built in
`TaskManager.add_task` (`id`, `description`, `status`, `createdAt`,
`updatedAt`).  Ids are Python ints, embedded as `Int`. -/
structure Task where
  id : Int
  description : String
  status : String
  createdAt : String
  updatedAt : String
deriving Repr, DecidableEq

/-- Errors raised by the manager.  Python raises `ValueError` with a message;
the spec names the two caller-facing kinds `ValidationError` (message carried
verbatim) and `NotFoundError` (carrying the missing id, message
`Task with id {id} not found.`).  `StorageError` (genuine I/O failure) is out
of scope of the embedded store model. -/
inductive Err where
  | validation : String → Err
  | notFound : Int → Err
deriving Repr, DecidableEq

/-- `TaskManager.STATUS_TODO`. -/
def STATUS_TODO : String := "todo"

/-- `TaskManager.STATUS_IN_PROGRESS`. -/
def STATUS_IN_PROGRESS : String := "in-progress"

/-- `TaskManager.STATUS_DONE`. -/
def STATUS_DONE : String := "done"

/-- `TaskManager.VALID_STATUSES` (a Python set, embedded as the list of its
three elements; only membership is ever used). -/
def VALID_STATUSES : List String := [STATUS_TODO, STATUS_IN_PROGRESS, STATUS_DONE]

/-- Python's `str.isspace` set restricted to the ASCII whitespace characters
(space, tab, newline, carriage return, vertical tab, form feed); used by
`str.strip()` with no argument. -/
def pyIsSpace (c : Char) : Bool :=
  c == ' ' || c == '\t' || c == '\n' || c == '\r' || c == '\x0b' || c == '\x0c'

/-- Python's `description.strip()`: drop leading and trailing whitespace. -/
def pyStrip (s : String) : String :=
  String.mk (((s.data.dropWhile pyIsSpace).reverse.dropWhile pyIsSpace).reverse)

/-- Maximum id of a non-empty task list: `max(t["id"] for t in tasks)` in
`TaskManager._next_id`.  The `[]` case is unreachable in the source (Python's
`max` on an empty iterable raises); we return 0 there, and `next_id` never
consults that case. -/
def maxId : List Task → Int
  | [] => 0
  | [t] => t.id
  | t :: ts => max t.id (maxId ts)

/-- `TaskManager._next_id`: `1 if not tasks else max(t["id"] for t in tasks) + 1`. -/
def next_id (tasks : List Task) : Int :=
  if tasks.isEmpty then 1 else maxId tasks + 1

/-- `TaskManager._find_task`: first task whose `id` equals `task_id`, else none. -/
def find_task (tasks : List Task) (task_id : Int) : Option Task :=
  tasks.find? (fun t => t.id == task_id)

/-- In-place mutation of the dict returned by `_find_task` inside the loaded
list: the first task whose id matches is replaced by `f` of it, all other
entries and the order are untouched.  (Python mutates the found dict through
its reference; on an immutable list this is replacement of the first match.) -/
def updateFirst (tasks : List Task) (task_id : Int) (f : Task → Task) : List Task :=
  match tasks with
  | [] => []
  | t :: ts => if t.id == task_id then f t :: ts else t :: updateFirst ts task_id f

/-- `TaskManager._update_task_status`: load, find, on miss raise not-found;
otherwise set `status` and `updatedAt` on the found record and save. -/
def update_task_status (file : List Task) (task_id : Int) (new_status : String)
    (now : String) : Except Err Task × List Task :=
  let tasks := file
  match find_task tasks task_id with
  | none => (.error (.notFound task_id), file)
  | some task =>
      (.ok { task with status := new_status, updatedAt := now },
       updateFirst tasks task_id (fun t => { t with status := new_status, updatedAt := now }))

/-- `TaskManager.add_task`: reject an empty / whitespace-only description
(`if not description or not description.strip()`), else build the new record
with the next id, status `todo` and both timestamps equal, append it and save. -/
def add_task (file : List Task) (description : String) (now : String) :
    Except Err Task × List Task :=
  if description = "" ∨ pyStrip description = "" then
    (.error (.validation "Task Description cannot be empty."), file)
  else
    let tasks := file
    let new_id := next_id tasks
    let task : Task :=
      { id := new_id, description := description, status := STATUS_TODO,
        createdAt := now, updatedAt := now }
    (.ok task, tasks ++ [task])

/-- `TaskManager.list_tasks`: load; with no filter return the collection as
is; with a filter, reject values outside `VALID_STATUSES`, else keep exactly
the tasks whose `status` equals the filter.  The file is never written. -/
def list_tasks (file : List Task) (status : Option String) :
    Except Err (List Task) × List Task :=
  let tasks := file
  match status with
  | none => (.ok tasks, file)
  | some s =>
      if VALID_STATUSES.contains s then
        (.ok (tasks.filter (fun t => t.status == s)), file)
      else
        (.error (.validation ("Invalid status filter: " ++ s)), file)

/-- `TaskManager.update_task`: reject an empty / whitespace-only new
description first; then load, find (raising not-found on miss), replace
`description`, refresh `updatedAt`, save. -/
def update_task (file : List Task) (id : Int) (updated_description : String)
    (now : String) : Except Err Task × List Task :=
  if updated_description = "" ∨ pyStrip updated_description = "" then
    (.error (.validation "Updated Task Description cannot be empty."), file)
  else
    let tasks := file
    match find_task tasks id with
    | none => (.error (.notFound id), file)
    | some task =>
        (.ok { task with description := updated_description, updatedAt := now },
         updateFirst tasks id
           (fun t => { t with description := updated_description, updatedAt := now }))

/-- `TaskManager.delete_task`: load, find (raising not-found on miss), remove
the found record (`tasks.remove(task)`: first list element equal to it) and
save; return the pre-deletion snapshot. -/
def delete_task (file : List Task) (id : Int) : Except Err Task × List Task :=
  let tasks := file
  match find_task tasks id with
  | none => (.error (.notFound id), file)
  | some task => (.ok task, tasks.erase task)

/-- `TaskManager.mark_in_progress`: the shared status-transition routine with
status `in-progress`. -/
def mark_in_progress (file : List Task) (id : Int) (now : String) :
    Except Err Task × List Task :=
  update_task_status file id STATUS_IN_PROGRESS now

/-- `TaskManager.mark_done`: the shared status-transition routine with status
`done`. -/
def mark_done (file : List Task) (id : Int) (now : String) :
    Except Err Task × List Task :=
  update_task_status file id STATUS_DONE now

/-!
JSON document model for the persisted file.  `TaskManager._save_tasks` writes
the list of task dicts with `json.dump`; `TaskManager._get_tasks` reads it
back with `json.load`.  We model the file's content at the JSON document
level: `tasksToJson` is the document `json.dump` serialises, and `tasksOfJson`
is what a fresh process recovers from it (`json.load` followed by field
access `t["id"]`, `t["description"]`, ... on each element).
-/

/-- A JSON document: the values `json.dump` / `json.load` exchange.  Objects
keep their key order, as Python dicts and `json.dump` do. -/
inductive Json where
  | null : Json
  | bool : Bool → Json
  | int : Int → Json
  | str : String → Json
  | arr : List Json → Json
  | obj : List (String × Json) → Json
deriving Repr

/-- One task dict as serialised by `json.dump`: the five keys in the insertion
order of `TaskManager.add_task`. -/
def taskToJson (t : Task) : Json :=
  .obj [("id", .int t.id), ("description", .str t.description),
        ("status", .str t.status), ("createdAt", .str t.createdAt),
        ("updatedAt", .str t.updatedAt)]

/-- The whole persisted document: a JSON array of task objects. -/
def tasksToJson (ts : List Task) : Json :=
  .arr (ts.map taskToJson)

/-- Value of a key in a JSON object (first binding wins, like a Python dict
built without duplicate keys). -/
def jsonField (fields : List (String × Json)) (key : String) : Option Json :=
  (fields.find? (fun p => p.1 == key)).map Prod.snd

/-- Read a JSON value as an integer. -/
def jsonInt : Json → Option Int
  | .int n => some n
  | _ => none

/-- Read a JSON value as a string. -/
def jsonStr : Json → Option String
  | .str s => some s
  | _ => none

/-- Recover one task record from its JSON object, the way a fresh process
reads the loaded dict's five fields. -/
def taskOfJson : Json → Option Task
  | .obj fields => do
      let i ← jsonField fields "id" >>= jsonInt
      let d ← jsonField fields "description" >>= jsonStr
      let st ← jsonField fields "status" >>= jsonStr
      let c ← jsonField fields "createdAt" >>= jsonStr
      let u ← jsonField fields "updatedAt" >>= jsonStr
      some { id := i, description := d, status := st, createdAt := c, updatedAt := u }
  | _ => none

/-- Recover a list of task records from a list of JSON elements. -/
def tasksOfJsonList : List Json → Option (List Task)
  | [] => some []
  | j :: js => do
      let t ← taskOfJson j
      let ts ← tasksOfJsonList js
      some (t :: ts)

/-- Recover the whole collection from the persisted JSON document. -/
def tasksOfJson : Json → Option (List Task)
  | .arr xs => tasksOfJsonList xs
  | _ => none

/-!
Reachability: the collections a store can hold after any sequence of public
manager operations starting from an empty store (missing or malformed file,
which `_get_tasks` treats as `[]`).  Each step's resulting file content is the
second component of the operation, which is the old content whenever the
operation raised.
-/

/-- One public mutating call, relating the file content before to the file
content after the call (errors leave the file untouched by construction of
the operations). -/
inductive Step : List Task → List Task → Prop where
  | add (s : List Task) (d now : String) : Step s (add_task s d now).2
  | update (s : List Task) (id : Int) (d now : String) : Step s (update_task s id d now).2
  | delete (s : List Task) (id : Int) : Step s (delete_task s id).2
  | markInProgress (s : List Task) (id : Int) (now : String) :
      Step s (mark_in_progress s id now).2
  | markDone (s : List Task) (id : Int) (now : String) : Step s (mark_done s id now).2

/-- Collections reachable from the empty store through public operations. -/
inductive Reachable : List Task → Prop where
  | init : Reachable []
  | step {s s' : List Task} : Reachable s → Step s s' → Reachable s'

/-! Helper lemmas. -/

/-- Stripping the empty string yields the empty string. -/
theorem pyStrip_empty : pyStrip "" = "" := rfl

/-- A description that is non-empty after stripping fails the source's
rejection test `not description or not description.strip()`. -/
theorem valid_descr {d : String} (hd : pyStrip d ≠ "") :
    ¬(d = "" ∨ pyStrip d = "") := by
  rintro (rfl | h)
  · exact hd pyStrip_empty
  · exact hd h

theorem maxId_nil : maxId [] = 0 := rfl

theorem maxId_singleton (t : Task) : maxId [t] = t.id := rfl

theorem maxId_cons_cons (t v : Task) (ws : List Task) :
    maxId (t :: v :: ws) = max t.id (maxId (v :: ws)) := rfl

/-- Every member's id is bounded by the maximum id. -/
theorem le_maxId_of_mem {ts : List Task} {t : Task} (h : t ∈ ts) :
    t.id ≤ maxId ts := by
  induction ts with
  | nil => cases h
  | cons u us ih =>
    cases us with
    | nil =>
      have : t = u := by simpa using h
      subst this
      simp [maxId_singleton]
    | cons v ws =>
      rcases List.mem_cons.mp h with h1 | h2
      · subst h1
        rw [maxId_cons_cons]
        exact le_max_left _ _
      · exact le_trans (ih h2) (maxId_cons_cons u v ws ▸ le_max_right _ _)

/-- The id handed out by `_next_id` is strictly above every id present. -/
theorem id_lt_next_id {ts : List Task} {t : Task} (h : t ∈ ts) :
    t.id < next_id ts := by
  cases ts with
  | nil => cases h
  | cons u us =>
    have : next_id (u :: us) = maxId (u :: us) + 1 := by
      simp [next_id]
    rw [this]
    exact lt_of_le_of_lt (le_maxId_of_mem h) (by omega)

/-- `_next_id` in closed form: 1 on the empty collection, max + 1 otherwise. -/
theorem next_id_closed_form (ts : List Task) :
    next_id ts = if ts = [] then 1 else maxId ts + 1 := by
  cases ts <;> simp [next_id]

/-- With all ids at least 1, `_next_id` hands out an id at least 1 (also true
on the empty collection, where it hands out 1). -/
theorem one_le_next_id {ts : List Task} (h : ∀ t ∈ ts, 1 ≤ t.id) :
    1 ≤ next_id ts := by
  cases ts with
  | nil => simp [next_id]
  | cons u us =>
    have h1 : 1 ≤ u.id := h u (List.mem_cons_self u us)
    have h2 : u.id ≤ maxId (u :: us) := le_maxId_of_mem (List.mem_cons_self u us)
    simp only [next_id, List.isEmpty_cons, if_neg]
    omega

/-- When no task carries the requested id, `_find_task` comes back empty. -/
theorem find_task_eq_none {ts : List Task} {id : Int}
    (h : ∀ t ∈ ts, t.id ≠ id) : find_task ts id = none := by
  apply List.find?_eq_none.mpr
  intro t ht
  simpa using h t ht

/-- The task `_find_task` returns carries the requested id. -/
theorem find_task_id {ts : List Task} {id : Int} {t : Task}
    (h : find_task ts id = some t) : t.id = id := by
  have := List.find?_some h
  simpa using this

/-- Locating the found task positionally: `_find_task` returns the record at
the first matching index `i`; mutating it in place is `List.set` at `i`, and
`tasks.remove(task)` is removal of index `i` (no earlier element can equal the
found record, since equal records share the id and `i` is the first match). -/
theorem find_task_spec {s : List Task} {id : Int} {t : Task}
    (h : find_task s id = some t) :
    ∃ i, ∃ hi : i < s.length,
      s.get ⟨i, hi⟩ = t ∧
      (∀ f : Task → Task, updateFirst s id f = s.set i (f t)) ∧
      s.erase t = s.eraseIdx i := by
  induction s with
  | nil => simp [find_task] at h
  | cons u us ih =>
    by_cases hu : u.id = id
    · have hut : u = t := by
        have h' := h
        simp only [find_task, List.find?_cons_of_pos, hu, beq_self_eq_true] at h'
        exact Option.some_injective _ h'
      subst hut
      refine ⟨0, by simp, rfl, ?_, ?_⟩
      · intro f
        simp [updateFirst, hu]
      · simp [List.erase_cons_head]
    · have hbeq : (u.id == id) = false := by simpa using hu
      have h' : find_task us id = some t := by
        simpa [find_task, List.find?_cons, hbeq] using h
      obtain ⟨i, hi, hget, hupd, herase⟩ := ih h'
      have htid : t.id = id := find_task_id h'
      have hune : ¬(u == t) := by
        simp only [beq_iff_eq]
        intro e
        exact hu (e ▸ htid)
      refine ⟨i + 1, Nat.succ_lt_succ hi, hget, ?_, ?_⟩
      · intro f
        simp [updateFirst, hbeq, hupd f]
      · rw [List.erase_cons_tail (by simpa using hune), herase]
        rfl

/-- `_find_task` skips a head record whose id does not match. -/
theorem find_task_cons_of_ne {u : Task} {us : List Task} {id : Int}
    (hu : u.id ≠ id) : find_task (u :: us) id = find_task us id :=
  List.find?_cons_of_neg _ (by simpa using hu)

/-- Replacing the first matching record with an id-preserving function
commutes with `_find_task`. -/
theorem find_task_updateFirst (s : List Task) (id : Int) (f : Task → Task)
    (hf : ∀ u : Task, (f u).id = u.id) :
    find_task (updateFirst s id f) id = (find_task s id).map f := by
  induction s with
  | nil => simp [find_task, updateFirst]
  | cons u us ih =>
    by_cases hu : u.id = id
    · simp [updateFirst, find_task, hu, hf u]
    · have hbeq : (u.id == id) = false := by simpa using hu
      have e1 : updateFirst (u :: us) id f = u :: updateFirst us id f := by
        simp [updateFirst, hbeq]
      rw [e1, find_task_cons_of_ne hu, find_task_cons_of_ne hu, ih]

/-- Membership after an in-place mutation of the first matching record: every
record of the new list is either an old record or the image of an old one. -/
theorem mem_updateFirst {s : List Task} {id : Int} {f : Task → Task} {t' : Task}
    (h : t' ∈ updateFirst s id f) : t' ∈ s ∨ ∃ u, u ∈ s ∧ t' = f u := by
  induction s with
  | nil => simp [updateFirst] at h
  | cons u us ih =>
    by_cases hu : (u.id == id) = true
    · simp only [updateFirst, hu, if_true] at h
      rcases List.mem_cons.mp h with h1 | h2
      · exact Or.inr ⟨u, List.mem_cons_self u us, h1⟩
      · exact Or.inl (List.mem_cons_of_mem u h2)
    · simp only [updateFirst, hu, if_false] at h
      rcases List.mem_cons.mp h with h1 | h2
      · exact Or.inl (h1 ▸ List.mem_cons_self u us)
      · rcases ih h2 with h3 | ⟨v, hv, he⟩
        · exact Or.inl (List.mem_cons_of_mem u h3)
        · exact Or.inr ⟨v, List.mem_cons_of_mem u hv, he⟩

/-- Serialising one task and reading it back is the identity. -/
theorem taskOfJson_taskToJson (t : Task) : taskOfJson (taskToJson t) = some t := rfl

/-- Serialising the collection and reading it back is the identity. -/
theorem tasksOfJson_tasksToJson (ts : List Task) :
    tasksOfJson (tasksToJson ts) = some ts := by
  induction ts with
  | nil => rfl
  | cons t ts ih =>
    simp only [tasksToJson, List.map_cons, tasksOfJson, tasksOfJsonList,
      taskOfJson_taskToJson, Option.bind_eq_bind, Option.some_bind]
    simp only [tasksToJson, tasksOfJson] at ih
    rw [ih]
    rfl

/-! Claim theorems. -/

/-- C1, counterexample to "an id once assigned to a task that is later deleted
is never assigned again": run `add "A"`, `add "B"`, `delete 2`, `add "C"` from
the empty store.  `delete 2` returns the task with id 2, and the subsequent
add assigns id 2 again (the maximum remaining id is 1, so the next id is 2). -/
theorem C1_id_reuse_counterexample :
    (delete_task (add_task (add_task [] "A" "t0").2 "B" "t1").2 2).1
      = .ok (Task.mk 2 "B" STATUS_TODO "t1" "t1") ∧
    (add_task (delete_task (add_task (add_task [] "A" "t0").2 "B" "t1").2 2).2 "C" "t2").1
      = .ok (Task.mk 2 "C" STATUS_TODO "t2" "t2") :=
  ⟨rfl, rfl⟩

/-- C1 (amended): for every collection state, the id assigned by add is 1 if
the collection is empty and (maximum existing id) + 1 otherwise, and the
assigned id differs from the id of every task currently in the collection;
an id of a previously deleted task can however be reassigned, when the
deleted id exceeded the maximum id of the remaining tasks. -/
theorem C1_id_assignment (s : List Task) (d now : String) (hd : pyStrip d ≠ "") :
    (add_task s d now).1 = .ok (Task.mk (next_id s) d STATUS_TODO now now) ∧
    next_id s = (if s = [] then 1 else maxId s + 1) ∧
    (∀ u ∈ s, u.id ≠ next_id s) ∧
    (add_task s d now).2 = s ++ [Task.mk (next_id s) d STATUS_TODO now now] := by
  have hv := valid_descr hd
  refine ⟨?_, next_id_closed_form s, ?_, ?_⟩
  · simp [add_task, hv]
  · intro u hu
    exact ne_of_lt (id_lt_next_id hu)
  · simp [add_task, hv]

/-- Witness for C1: on the store holding tasks 1 and 2, add assigns id 3 and
appends the new record. -/
theorem C1_id_assignment_witness :
    (add_task [Task.mk 1 "A" "todo" "t0" "t0", Task.mk 2 "B" "todo" "t1" "t1"] "C" "t2").1
      = .ok (Task.mk 3 "C" STATUS_TODO "t2" "t2") ∧
    (add_task [Task.mk 1 "A" "todo" "t0" "t0", Task.mk 2 "B" "todo" "t1" "t1"] "C" "t2").2
      = [Task.mk 1 "A" "todo" "t0" "t0", Task.mk 2 "B" "todo" "t1" "t1",
         Task.mk 3 "C" STATUS_TODO "t2" "t2"] :=
  ⟨(C1_id_assignment [Task.mk 1 "A" "todo" "t0" "t0", Task.mk 2 "B" "todo" "t1" "t1"]
      "C" "t2" (by decide)).1,
   (C1_id_assignment [Task.mk 1 "A" "todo" "t0" "t0", Task.mk 2 "B" "todo" "t1" "t1"]
      "C" "t2" (by decide)).2.2.2⟩

/-- C2: on an id that occurs nowhere in the collection, update (with a valid
description), delete, mark-in-progress and mark-done all raise the not-found
error and leave the persisted collection exactly as it was (no write). -/
theorem C2_notfound_no_write (s : List Task) (id : Int) (d now : String)
    (hid : ∀ t ∈ s, t.id ≠ id) (hd : pyStrip d ≠ "") :
    update_task s id d now = (.error (.notFound id), s) ∧
    delete_task s id = (.error (.notFound id), s) ∧
    mark_in_progress s id now = (.error (.notFound id), s) ∧
    mark_done s id now = (.error (.notFound id), s) := by
  have hnone := find_task_eq_none hid
  have hv := valid_descr hd
  refine ⟨?_, ?_, ?_, ?_⟩ <;>
    simp [update_task, delete_task, mark_in_progress, mark_done,
      update_task_status, hnone, hv]

/-- Witness for C2: id 2 is absent from a one-task store; all four operations
report not-found and return the store unchanged. -/
theorem C2_notfound_no_write_witness :
    update_task [Task.mk 1 "A" "todo" "t0" "t0"] 2 "B" "t1"
      = (.error (.notFound 2), [Task.mk 1 "A" "todo" "t0" "t0"]) ∧
    delete_task [Task.mk 1 "A" "todo" "t0" "t0"] 2
      = (.error (.notFound 2), [Task.mk 1 "A" "todo" "t0" "t0"]) ∧
    mark_in_progress [Task.mk 1 "A" "todo" "t0" "t0"] 2 "t1"
      = (.error (.notFound 2), [Task.mk 1 "A" "todo" "t0" "t0"]) ∧
    mark_done [Task.mk 1 "A" "todo" "t0" "t0"] 2 "t1"
      = (.error (.notFound 2), [Task.mk 1 "A" "todo" "t0" "t0"]) :=
  C2_notfound_no_write [Task.mk 1 "A" "todo" "t0" "t0"] 2 "B" "t1"
    (by decide) (by decide)

/-- C3: adding a description that is non-empty after stripping returns a
record with status `todo`, `createdAt` equal to `updatedAt`, the stored
description exactly the given string (whitespace preserved), and, on a
collection whose ids are all at least 1, a strictly positive id. -/
theorem C3_add_valid (s : List Task) (d now : String)
    (hd : pyStrip d ≠ "") (hpos : ∀ t ∈ s, 1 ≤ t.id) :
    (add_task s d now).1 = .ok (Task.mk (next_id s) d STATUS_TODO now now) ∧
    1 ≤ next_id s := by
  have hv := valid_descr hd
  exact ⟨by simp [add_task, hv], one_le_next_id hpos⟩

/-- Witness for C3: adding `"  x  "` to the empty store stores the description
with its surrounding whitespace, status `todo`, equal timestamps, id 1. -/
theorem C3_add_valid_witness :
    (add_task [] "  x  " "t0").1 = .ok (Task.mk 1 "  x  " STATUS_TODO "t0" "t0") ∧
    (1 : Int) ≤ next_id [] :=
  C3_add_valid [] "  x  " "t0" (by decide) (by decide)

/-- C4: listing with no filter returns the whole collection in order with the
file untouched; listing with a valid status filter returns exactly the
records whose status equals the filter, in the same relative order, with the
file untouched. -/
theorem C4_list_filter (s : List Task) (st : String) (hst : st ∈ VALID_STATUSES) :
    list_tasks s none = (.ok s, s) ∧
    list_tasks s (some st) = (.ok (s.filter (fun t => t.status == st)), s) := by
  refine ⟨rfl, ?_⟩
  simp only [VALID_STATUSES, STATUS_TODO, STATUS_IN_PROGRESS, STATUS_DONE,
    List.mem_cons, List.not_mem_nil, or_false] at hst
  rcases hst with rfl | rfl | rfl <;> rfl

/-- Witness for C4: filtering a two-task store by `todo` keeps exactly the
`todo` task and the file is unchanged. -/
theorem C4_list_filter_witness :
    list_tasks [Task.mk 1 "A" "todo" "t0" "t0", Task.mk 2 "B" "done" "t1" "t1"] none
      = (.ok [Task.mk 1 "A" "todo" "t0" "t0", Task.mk 2 "B" "done" "t1" "t1"],
         [Task.mk 1 "A" "todo" "t0" "t0", Task.mk 2 "B" "done" "t1" "t1"]) ∧
    list_tasks [Task.mk 1 "A" "todo" "t0" "t0", Task.mk 2 "B" "done" "t1" "t1"] (some "todo")
      = (.ok [Task.mk 1 "A" "todo" "t0" "t0"],
         [Task.mk 1 "A" "todo" "t0" "t0", Task.mk 2 "B" "done" "t1" "t1"]) :=
  C4_list_filter [Task.mk 1 "A" "todo" "t0" "t0", Task.mk 2 "B" "done" "t1" "t1"]
    "todo" (by decide)

/-- C5: the collection persisted by any of the five mutating operations,
serialised to the JSON document `json.dump` writes, is recovered identically
by a fresh load (`json.load` plus field reads) — load after save is the
identity on the saved collection. -/
theorem C5_round_trip (s : List Task) (id : Int) (d now : String) :
    tasksOfJson (tasksToJson (add_task s d now).2) = some (add_task s d now).2 ∧
    tasksOfJson (tasksToJson (update_task s id d now).2) = some (update_task s id d now).2 ∧
    tasksOfJson (tasksToJson (delete_task s id).2) = some (delete_task s id).2 ∧
    tasksOfJson (tasksToJson (mark_in_progress s id now).2) = some (mark_in_progress s id now).2 ∧
    tasksOfJson (tasksToJson (mark_done s id now).2) = some (mark_done s id now).2 :=
  ⟨tasksOfJson_tasksToJson _, tasksOfJson_tasksToJson _, tasksOfJson_tasksToJson _,
   tasksOfJson_tasksToJson _, tasksOfJson_tasksToJson _⟩

/-- Witness for C5: the round trip instantiated on a concrete one-task store
with concrete mutation arguments. -/
theorem C5_round_trip_witness :
    tasksOfJson (tasksToJson (add_task [Task.mk 1 "A" "todo" "t0" "t0"] "B" "t1").2)
      = some (add_task [Task.mk 1 "A" "todo" "t0" "t0"] "B" "t1").2 ∧
    tasksOfJson (tasksToJson (update_task [Task.mk 1 "A" "todo" "t0" "t0"] 1 "B" "t1").2)
      = some (update_task [Task.mk 1 "A" "todo" "t0" "t0"] 1 "B" "t1").2 ∧
    tasksOfJson (tasksToJson (delete_task [Task.mk 1 "A" "todo" "t0" "t0"] 1).2)
      = some (delete_task [Task.mk 1 "A" "todo" "t0" "t0"] 1).2 ∧
    tasksOfJson (tasksToJson (mark_in_progress [Task.mk 1 "A" "todo" "t0" "t0"] 1 "t1").2)
      = some (mark_in_progress [Task.mk 1 "A" "todo" "t0" "t0"] 1 "t1").2 ∧
    tasksOfJson (tasksToJson (mark_done [Task.mk 1 "A" "todo" "t0" "t0"] 1 "t1").2)
      = some (mark_done [Task.mk 1 "A" "todo" "t0" "t0"] 1 "t1").2 :=
  C5_round_trip [Task.mk 1 "A" "todo" "t0" "t0"] 1 "B" "t1"

/-- C6: on a description that strips to the empty string, add and update both
raise the validation error and return the persisted collection unchanged
(the error comes before any save). -/
theorem C6_empty_description (s : List Task) (id : Int) (d now : String)
    (hd : pyStrip d = "") :
    add_task s d now = (.error (.validation "Task Description cannot be empty."), s) ∧
    update_task s id d now
      = (.error (.validation "Updated Task Description cannot be empty."), s) := by
  have hc : d = "" ∨ pyStrip d = "" := Or.inr hd
  exact ⟨by simp [add_task, hc], by simp [update_task, hc]⟩

/-- Witness for C6: the whitespace-only description `"   "` is rejected by add
and update on a one-task store, which stays as it was. -/
theorem C6_empty_description_witness :
    add_task [Task.mk 1 "A" "todo" "t0" "t0"] "   " "t1"
      = (.error (.validation "Task Description cannot be empty."),
         [Task.mk 1 "A" "todo" "t0" "t0"]) ∧
    update_task [Task.mk 1 "A" "todo" "t0" "t0"] 1 "   " "t1"
      = (.error (.validation "Updated Task Description cannot be empty."),
         [Task.mk 1 "A" "todo" "t0" "t0"]) :=
  C6_empty_description [Task.mk 1 "A" "todo" "t0" "t0"] 1 "   " "t1" (by decide)

/-- C7: on the addressed task, a successful update keeps `id`, `status` and
`createdAt`, replaces the description and sets `updatedAt` to the current
timestamp; the two mark operations keep `id`, `description` and `createdAt`,
set the status and set `updatedAt` to the current timestamp — both in the
returned record and in the record stored under that id afterwards. -/
theorem C7_timestamps (s : List Task) (id : Int) (t : Task) (d now : String)
    (hfind : find_task s id = some t) (hd : pyStrip d ≠ "") :
    (update_task s id d now).1 = .ok (Task.mk t.id d t.status t.createdAt now) ∧
    (mark_in_progress s id now).1
      = .ok (Task.mk t.id t.description STATUS_IN_PROGRESS t.createdAt now) ∧
    (mark_done s id now).1 = .ok (Task.mk t.id t.description STATUS_DONE t.createdAt now) ∧
    find_task (update_task s id d now).2 id = some (Task.mk t.id d t.status t.createdAt now) ∧
    find_task (mark_in_progress s id now).2 id
      = some (Task.mk t.id t.description STATUS_IN_PROGRESS t.createdAt now) ∧
    find_task (mark_done s id now).2 id
      = some (Task.mk t.id t.description STATUS_DONE t.createdAt now) := by
  have hv := valid_descr hd
  have e1 : (update_task s id d now).2
      = updateFirst s id (fun u => { u with description := d, updatedAt := now }) := by
    simp [update_task, hv, hfind]
  have e2 : (mark_in_progress s id now).2
      = updateFirst s id (fun u => { u with status := STATUS_IN_PROGRESS, updatedAt := now }) := by
    simp [mark_in_progress, update_task_status, hfind]
  have e3 : (mark_done s id now).2
      = updateFirst s id (fun u => { u with status := STATUS_DONE, updatedAt := now }) := by
    simp [mark_done, update_task_status, hfind]
  refine ⟨by simp [update_task, hv, hfind],
    by simp [mark_in_progress, update_task_status, hfind],
    by simp [mark_done, update_task_status, hfind], ?_, ?_, ?_⟩
  · rw [e1, find_task_updateFirst s id
      (fun u => { u with description := d, updatedAt := now }) (fun u => rfl), hfind]
    rfl
  · rw [e2, find_task_updateFirst s id
      (fun u => { u with status := STATUS_IN_PROGRESS, updatedAt := now }) (fun u => rfl), hfind]
    rfl
  · rw [e3, find_task_updateFirst s id
      (fun u => { u with status := STATUS_DONE, updatedAt := now }) (fun u => rfl), hfind]
    rfl

/-- Witness for C7: mutating task 1 of a two-task store keeps its `createdAt`
`"t0"` and sets `updatedAt` to `"t2"`, in the returned record and in the
stored one. -/
theorem C7_timestamps_witness :
    (update_task [Task.mk 1 "A" "todo" "t0" "t0", Task.mk 2 "B" "done" "t1" "t1"]
        1 "A2" "t2").1 = .ok (Task.mk 1 "A2" "todo" "t0" "t2") ∧
    (mark_in_progress [Task.mk 1 "A" "todo" "t0" "t0", Task.mk 2 "B" "done" "t1" "t1"]
        1 "t2").1 = .ok (Task.mk 1 "A" STATUS_IN_PROGRESS "t0" "t2") ∧
    (mark_done [Task.mk 1 "A" "todo" "t0" "t0", Task.mk 2 "B" "done" "t1" "t1"]
        1 "t2").1 = .ok (Task.mk 1 "A" STATUS_DONE "t0" "t2") ∧
    find_task (update_task [Task.mk 1 "A" "todo" "t0" "t0", Task.mk 2 "B" "done" "t1" "t1"]
        1 "A2" "t2").2 1 = some (Task.mk 1 "A2" "todo" "t0" "t2") ∧
    find_task (mark_in_progress [Task.mk 1 "A" "todo" "t0" "t0", Task.mk 2 "B" "done" "t1" "t1"]
        1 "t2").2 1 = some (Task.mk 1 "A" STATUS_IN_PROGRESS "t0" "t2") ∧
    find_task (mark_done [Task.mk 1 "A" "todo" "t0" "t0", Task.mk 2 "B" "done" "t1" "t1"]
        1 "t2").2 1 = some (Task.mk 1 "A" STATUS_DONE "t0" "t2") :=
  C7_timestamps [Task.mk 1 "A" "todo" "t0" "t0", Task.mk 2 "B" "done" "t1" "t1"]
    1 (Task.mk 1 "A" "todo" "t0" "t0") "A2" "t2" (by decide) (by decide)

/-- C8: every collection reachable from the empty store through the public
operations carries only the three enumerated status values. -/
theorem C8_status_invariant (s : List Task) (hs : Reachable s) :
    ∀ t ∈ s, t.status ∈ VALID_STATUSES := by
  induction hs with
  | init => intro t ht; cases ht
  | @step s1 s2 _ hstep ih =>
    cases hstep with
    | add d now =>
      intro t' ht'
      by_cases hc : d = "" ∨ pyStrip d = ""
      · rw [show (add_task s1 d now).2 = s1 by simp [add_task, hc]] at ht'
        exact ih t' ht'
      · rw [show (add_task s1 d now).2
            = s1 ++ [Task.mk (next_id s1) d STATUS_TODO now now] by simp [add_task, hc]] at ht'
        rcases List.mem_append.mp ht' with h1 | h2
        · exact ih t' h1
        · rw [List.mem_singleton.mp h2]
          simp [VALID_STATUSES]
    | update id d now =>
      intro t' ht'
      by_cases hc : d = "" ∨ pyStrip d = ""
      · rw [show (update_task s1 id d now).2 = s1 by simp [update_task, hc]] at ht'
        exact ih t' ht'
      · cases hf : find_task s1 id with
        | none =>
          rw [show (update_task s1 id d now).2 = s1 by simp [update_task, hc, hf]] at ht'
          exact ih t' ht'
        | some t =>
          rw [show (update_task s1 id d now).2
              = updateFirst s1 id (fun u => { u with description := d, updatedAt := now })
              by simp [update_task, hc, hf]] at ht'
          rcases mem_updateFirst ht' with h1 | ⟨u, hu, he⟩
          · exact ih t' h1
          · rw [he]
            exact ih u hu
    | delete id =>
      intro t' ht'
      cases hf : find_task s1 id with
      | none =>
        rw [show (delete_task s1 id).2 = s1 by simp [delete_task, hf]] at ht'
        exact ih t' ht'
      | some t =>
        rw [show (delete_task s1 id).2 = s1.erase t by simp [delete_task, hf]] at ht'
        exact ih t' (List.mem_of_mem_erase ht')
    | markInProgress id now =>
      intro t' ht'
      cases hf : find_task s1 id with
      | none =>
        rw [show (mark_in_progress s1 id now).2 = s1
            by simp [mark_in_progress, update_task_status, hf]] at ht'
        exact ih t' ht'
      | some t =>
        rw [show (mark_in_progress s1 id now).2
            = updateFirst s1 id (fun u => { u with status := STATUS_IN_PROGRESS, updatedAt := now })
            by simp [mark_in_progress, update_task_status, hf]] at ht'
        rcases mem_updateFirst ht' with h1 | ⟨u, hu, he⟩
        · exact ih t' h1
        · rw [he]
          simp [VALID_STATUSES]
    | markDone id now =>
      intro t' ht'
      cases hf : find_task s1 id with
      | none =>
        rw [show (mark_done s1 id now).2 = s1
            by simp [mark_done, update_task_status, hf]] at ht'
        exact ih t' ht'
      | some t =>
        rw [show (mark_done s1 id now).2
            = updateFirst s1 id (fun u => { u with status := STATUS_DONE, updatedAt := now })
            by simp [mark_done, update_task_status, hf]] at ht'
        rcases mem_updateFirst ht' with h1 | ⟨u, hu, he⟩
        · exact ih t' h1
        · rw [he]
          simp [VALID_STATUSES]

/-- Witness for C8: the store reached by one add holds the task created with
status `todo`, which is one of the three enumerated values. -/
theorem C8_status_invariant_witness :
    (Task.mk 1 "Buy milk" "todo" "t0" "t0").status ∈ VALID_STATUSES :=
  C8_status_invariant (add_task [] "Buy milk" "t0").2
    (Reachable.step Reachable.init (Step.add [] "Buy milk" "t0"))
    (Task.mk 1 "Buy milk" "todo" "t0" "t0") (by decide)

/-- C9: on a description that fails the source's emptiness test, update raises
the validation error for every id — present in the collection or not — and
the persisted collection is returned unchanged: the empty-description check
precedes the not-found check. -/
theorem C9_validation_precedes_notfound (s : List Task) (id : Int) (d now : String)
    (hd : d = "" ∨ pyStrip d = "") :
    update_task s id d now
      = (.error (.validation "Updated Task Description cannot be empty."), s) := by
  simp [update_task, hd]

/-- Witness for C9: `update 99 ""` on the empty store (id 99 nonexistent)
raises the validation error, not the not-found error. -/
theorem C9_validation_precedes_notfound_witness :
    update_task [] 99 "" "t0"
      = (.error (.validation "Updated Task Description cannot be empty."), []) :=
  C9_validation_precedes_notfound [] 99 "" "t0" (Or.inl rfl)

/-- C10: each successful mutation touches at most the addressed position:
update and the two marks persist `List.set` of the old collection at the
index `i` of the addressed record (all other positions and the order kept),
delete persists removal of exactly index `i`, and add persists the old
collection with the one new record appended. -/
theorem C10_frame (s : List Task) (id : Int) (t : Task) (d now : String)
    (hfind : find_task s id = some t) (hd : pyStrip d ≠ "") :
    (∃ i, ∃ hi : i < s.length,
      s.get ⟨i, hi⟩ = t ∧
      (update_task s id d now).2 = s.set i (Task.mk t.id d t.status t.createdAt now) ∧
      (mark_in_progress s id now).2
        = s.set i (Task.mk t.id t.description STATUS_IN_PROGRESS t.createdAt now) ∧
      (mark_done s id now).2
        = s.set i (Task.mk t.id t.description STATUS_DONE t.createdAt now) ∧
      (delete_task s id).2 = s.eraseIdx i) ∧
    (add_task s d now).2 = s ++ [Task.mk (next_id s) d STATUS_TODO now now] := by
  have hv := valid_descr hd
  obtain ⟨i, hi, hget, hupd, herase⟩ := find_task_spec hfind
  refine ⟨⟨i, hi, hget, ?_, ?_, ?_, ?_⟩, by simp [add_task, hv]⟩
  · rw [show (update_task s id d now).2
        = updateFirst s id (fun u => { u with description := d, updatedAt := now })
        by simp [update_task, hv, hfind]]
    exact hupd _
  · rw [show (mark_in_progress s id now).2
        = updateFirst s id (fun u => { u with status := STATUS_IN_PROGRESS, updatedAt := now })
        by simp [mark_in_progress, update_task_status, hfind]]
    exact hupd _
  · rw [show (mark_done s id now).2
        = updateFirst s id (fun u => { u with status := STATUS_DONE, updatedAt := now })
        by simp [mark_done, update_task_status, hfind]]
    exact hupd _
  · rw [show (delete_task s id).2 = s.erase t by simp [delete_task, hfind]]
    exact herase

/-- Witness for C10: on a two-task store, mutating task 2 rewrites only the
second position, deleting it removes only the second position, and add only
appends. -/
theorem C10_frame_witness :
    (∃ i, ∃ hi : i < [Task.mk 1 "A" "todo" "t0" "t0", Task.mk 2 "B" "done" "t1" "t1"].length,
      [Task.mk 1 "A" "todo" "t0" "t0", Task.mk 2 "B" "done" "t1" "t1"].get ⟨i, hi⟩
        = Task.mk 2 "B" "done" "t1" "t1" ∧
      (update_task [Task.mk 1 "A" "todo" "t0" "t0", Task.mk 2 "B" "done" "t1" "t1"]
          2 "B2" "t2").2
        = [Task.mk 1 "A" "todo" "t0" "t0", Task.mk 2 "B" "done" "t1" "t1"].set i
            (Task.mk 2 "B2" "done" "t1" "t2") ∧
      (mark_in_progress [Task.mk 1 "A" "todo" "t0" "t0", Task.mk 2 "B" "done" "t1" "t1"]
          2 "t2").2
        = [Task.mk 1 "A" "todo" "t0" "t0", Task.mk 2 "B" "done" "t1" "t1"].set i
            (Task.mk 2 "B" STATUS_IN_PROGRESS "t1" "t2") ∧
      (mark_done [Task.mk 1 "A" "todo" "t0" "t0", Task.mk 2 "B" "done" "t1" "t1"]
          2 "t2").2
        = [Task.mk 1 "A" "todo" "t0" "t0", Task.mk 2 "B" "done" "t1" "t1"].set i
            (Task.mk 2 "B" STATUS_DONE "t1" "t2") ∧
      (delete_task [Task.mk 1 "A" "todo" "t0" "t0", Task.mk 2 "B" "done" "t1" "t1"] 2).2
        = [Task.mk 1 "A" "todo" "t0" "t0", Task.mk 2 "B" "done" "t1" "t1"].eraseIdx i) ∧
    (add_task [Task.mk 1 "A" "todo" "t0" "t0", Task.mk 2 "B" "done" "t1" "t1"] "B2" "t2").2
      = [Task.mk 1 "A" "todo" "t0" "t0", Task.mk 2 "B" "done" "t1" "t1"]
        ++ [Task.mk 3 "B2" STATUS_TODO "t2" "t2"] :=
  C10_frame [Task.mk 1 "A" "todo" "t0" "t0", Task.mk 2 "B" "done" "t1" "t1"]
    2 (Task.mk 2 "B" "done" "t1" "t1") "B2" "t2" (by decide) (by decide)

end TaskTango
